import Mathlib

/-!
# Verification of the scheme-rs interpreter core

A shallow embedding, in Lean 4, of the interpreter implemented in
`src/main.rs` (tokenizer, recursive-descent reader, atom classifier,
environment chain, evaluator, and the primitive table built by
`setup_functions`), together with a model, built from the specification,
of the library-level `run`/`setup` pipeline that the test harness in
`tests/spec.rs` exercises but whose source is not part of this tree.

Modelling conventions:
* Rust `u64` values are `Nat`; where the source multiplies `u64`s the
  embedding reduces modulo `2 ^ 64` (release-mode wrap-around).
* Rust `f64` values are modelled as exact rationals `ℚ`: the dispatch,
  widening and fold structure of the source is kept, IEEE rounding is
  abstracted away.  The special float spellings (`inf`, `nan`, ...) of
  Rust's float grammar are not modelled.
* Rust `panic!` (including out-of-range `Vec` indexing) is a distinct
  `abort` outcome, separate from recoverable `Err` results, since a panic
  tears the process down while an `Err` value is returned to the caller.
* `HashMap<String, _>` becomes an association list with unique keys;
  `insert` replaces an existing binding in place.
-/

namespace SchemeRs

/-- Whitespace test used for splitting. Rust's `split_whitespace` splits on
Unicode whitespace; the embedding uses the ASCII whitespace characters,
which is the same predicate on the ASCII programs this interpreter reads. -/
def isWs (c : Char) : Bool :=
  c = ' ' || c = '\t' || c = '\n' || c = '\r'

/-- The character expansion step of `tokenize` (`src/main.rs` lines 100-117):
each `(` and `)` is surrounded by spaces, every other character is kept. -/
def expandChars : List Char → List Char
  | [] => []
  | c :: cs =>
    if c = '(' then ' ' :: '(' :: ' ' :: expandChars cs
    else if c = ')' then ' ' :: ')' :: ' ' :: expandChars cs
    else c :: expandChars cs

/-- Close the pending atom accumulator: an empty run produces no token
(`split_whitespace` drops empty fields). -/
def closeAcc (acc : List Char) : List (List Char) :=
  if acc = [] then [] else [acc]

/-- `split_whitespace` (`src/main.rs` line 120) over a character list,
carrying the run of non-whitespace characters read so far. -/
def splitWs : List Char → List Char → List (List Char)
  | [], acc => closeAcc acc
  | c :: cs, acc =>
    if isWs c then closeAcc acc ++ splitWs cs []
    else splitWs cs (acc ++ [c])

/-- `tokenize` (`src/main.rs` lines 94-122): expand parentheses with spaces,
then split on whitespace. -/
def tokenize (program : List Char) : List (List Char) :=
  splitWs (expandChars program) []

/-- `tokenize` on a Rust `&str`, producing `String` tokens. -/
def tokenizeStr (program : String) : List String :=
  (tokenize program.data).map (fun cs => String.mk cs)

/-- Tokenizer written from the specification sentence, for the refinement
check of claim C8: scan the input once; a parenthesis always becomes its
own single-character token, whitespace ends the current atom run, any
other character extends the current atom run. -/
def specTokenize : List Char → List Char → List (List Char)
  | [], acc => closeAcc acc
  | c :: cs, acc =>
    if c = '(' || c = ')' then closeAcc acc ++ [[c]] ++ specTokenize cs []
    else if isWs c then closeAcc acc ++ specTokenize cs []
    else specTokenize cs (acc ++ [c])

/-! ## Syntax tree and atom classification -/

/-- The syntax-tree node type (`enum AST`, `src/main.rs` lines 8-14). -/
inductive AST where
  | Integer (i : Nat)
  | Float (f : ℚ)
  | Symbol (s : String)
  | Children (l : List AST)

/-- Value of a list of decimal digit characters. -/
def digitsToNat (ds : List Char) : Nat :=
  ds.foldl (fun a c => a * 10 + (c.toNat - '0'.toNat)) 0

/-- Rust's `str::parse::<u64>`: an optional leading `+`, then one or more
decimal digits, value below `2 ^ 64`; anything else is a parse error. -/
def parseU64 (s : List Char) : Option Nat :=
  let ds := match s with
    | '+' :: r => r
    | _ => s
  if ds ≠ [] && ds.all Char.isDigit then
    let v := digitsToNat ds
    if v < 2 ^ 64 then some v else none
  else none

/-- Split a character list into its leading digit run and the rest. -/
def spanDigits (s : List Char) : List Char × List Char :=
  (s.takeWhile Char.isDigit, s.dropWhile Char.isDigit)

/-- The optional exponent suffix of Rust's float grammar: either nothing,
or `e`/`E`, an optional sign, and one or more digits ending the token. -/
def parseExpPart (s : List Char) : Option Int :=
  match s with
  | [] => some 0
  | e :: r =>
    if e = 'e' || e = 'E' then
      let sr : Int × List Char := match r with
        | '+' :: rr => (1, rr)
        | '-' :: rr => (-1, rr)
        | _ => (1, r)
      let ds := spanDigits sr.2
      if ds.1 ≠ [] && ds.2 = [] then some (sr.1 * (digitsToNat ds.1 : Int))
      else none
    else none

/-- Mantissa value of an integer digit run and a fraction digit run. -/
def mantissa (ip fp : List Char) : ℚ :=
  (digitsToNat (ip ++ fp) : ℚ) / 10 ^ fp.length

/-- The optional sign of Rust's float grammar: the sign factor and the
remaining characters. -/
def stripSignF : List Char → ℚ × List Char
  | '+' :: r => (1, r)
  | '-' :: r => (-1, r)
  | s => (1, s)

/-- Rust's `str::parse::<f64>` restricted to its finite-number grammar:
optional sign, then `digits [. digits] [exp]` or `. digits [exp]`. The
value is the exact decimal rational (IEEE rounding abstracted away); the
special spellings `inf`/`infinity`/`nan` are not modelled. -/
def parseF64 (s : List Char) : Option ℚ :=
  let sg : ℚ × List Char := stripSignF s
  let ipRest := spanDigits sg.2
  match ipRest.1, ipRest.2 with
  | [], '.' :: r =>
    let fpRest := spanDigits r
    if fpRest.1 = [] then none
    else (parseExpPart fpRest.2).map (fun e => sg.1 * mantissa [] fpRest.1 * 10 ^ e)
  | [], _ => none
  | _ :: _, '.' :: r =>
    let fpRest := spanDigits r
    (parseExpPart fpRest.2).map (fun e => sg.1 * mantissa ipRest.1 fpRest.1 * 10 ^ e)
  | _ :: _, rest => (parseExpPart rest).map (fun e => sg.1 * mantissa ipRest.1 [] * 10 ^ e)

/-- `atom` (`src/main.rs` lines 167-178): try the `u64` parse, then the
`f64` parse, and fall back to a Symbol node. -/
def atom (token : String) : AST :=
  match parseU64 token.data with
  | some i => .Integer i
  | none =>
    match parseF64 token.data with
    | some f => .Float f
    | none => .Symbol token

/-! ## Reader

`read_from_tokens` (`src/main.rs` lines 124-165).  The Rust function
returns `Result<ReadFromTokenResult, &str>`; indexing `tmp_tokens[0]` on an
empty vector panics, which the embedding records as a separate `abort`
outcome.  The `ok` constructors carry the strict-decrease fact about the
unconsumed remainder; it is what makes the source's `while` loop (and this
embedding) terminate, and it is erased by `ReadOut.plain` below. -/

/-- Outcome of reading one form from a token list of length `n`. -/
inductive ReadOut (n : Nat) where
  | ok (result : AST) (remain : List String) (h : remain.length < n)
  | err (msg : String)
  | abort (msg : String)

/-- Outcome of the child-reading loop over a token list of length `n`:
the children read so far and the tokens after the consumed `)`. -/
inductive LoopOut (n : Nat) where
  | ok (children : List AST) (remain : List String) (h : remain.length < n)
  | err (msg : String)
  | abort (msg : String)

mutual

/-- One step of the reader: consume the first token; `(` enters the child
loop (after the source's emptiness check yielding `syntax error`), a bare
`)` is `unexpected )`, any other token classifies via `atom`, and an empty
token list is `unexpected EOF while reading`. -/
def readFromTokens : (ts : List String) → ReadOut ts.length
  | [] => .err "unexpected EOF while reading"
  | token :: rest =>
    if token = "(" then
      match rest with
      | [] => .err "syntax error"
      | r0 :: rrest =>
        match readLoop (r0 :: rrest) with
        | .ok children remain h =>
          .ok (.Children children) remain
            (by simp only [List.length_cons] at h ⊢; omega)
        | .err m => .err m
        | .abort m => .abort m
    else if token = ")" then .err "unexpected )"
    else .ok (atom token) rest (by simp)
termination_by ts => (ts.length, 0)

/-- The source's `while tmp_tokens[0] != ")"` loop: on `)` the loop exits
and the `)` is removed; on an empty list the index is out of range (panic);
otherwise one child form is read and the loop continues on its remainder. -/
def readLoop : (tmp : List String) → LoopOut tmp.length
  | [] => .abort "index out of bounds"
  | t :: rest =>
    if t = ")" then .ok [] rest (by simp)
    else
      match readFromTokens (t :: rest) with
      | .ok node remain h =>
        match readLoop remain with
        | .ok children remain2 h2 => .ok (node :: children) remain2 (h2.trans h)
        | .err m => .err m
        | .abort m => .abort m
      | .err m => .err m
      | .abort m => .abort m
termination_by tmp => (tmp.length, 1)

end

/-- A proof-free view of a reader outcome, matching the Rust
`Result<ReadFromTokenResult, &str>` (with `abort` for a panic). -/
inductive ReadResult where
  | ok (result : AST) (remain : List String)
  | err (msg : String)
  | abort (msg : String)

/-- Erase the termination evidence from a reader outcome. -/
def ReadOut.plain {n : Nat} : ReadOut n → ReadResult
  | .ok r remain _ => .ok r remain
  | .err m => .err m
  | .abort m => .abort m

/-- `read_from_tokens` as the source exposes it. -/
def readTokens (ts : List String) : ReadResult :=
  (readFromTokens ts).plain

/-- `parse` (`src/main.rs` lines 85-92): tokenize, then read one form. -/
def parse (program : String) : ReadResult :=
  readTokens (tokenizeStr program)

/-! ### A fuel-indexed computation engine for the reader

`readFromTokens` is defined by well-founded recursion, which the kernel
cannot evaluate on concrete inputs.  `readF`/`loopF` below are the same
algorithm driven by a structural fuel counter, with a fourth outcome for
fuel exhaustion; `readF_eq` proves that with fuel `2·n+1` on `n` tokens
the engine computes exactly `readFromTokens`, so concrete reader facts
can be settled by kernel evaluation of `readF`. -/

/-- Outcome of the fuel-driven child loop. -/
inductive LoopResult where
  | ok (children : List AST) (remain : List String)
  | err (msg : String)
  | abort (msg : String)
  | outOfFuel

/-- Erase the termination evidence from a loop outcome. -/
def LoopOut.plain {n : Nat} : LoopOut n → LoopResult
  | .ok children remain _ => .ok children remain
  | .err m => .err m
  | .abort m => .abort m

/-- Outcome of the fuel-driven reader. -/
inductive ReadFResult where
  | ok (result : AST) (remain : List String)
  | err (msg : String)
  | abort (msg : String)
  | outOfFuel

/-- Reader outcome, forgetting that fuel cannot run out. -/
def ReadResult.lift : ReadResult → ReadFResult
  | .ok r remain => .ok r remain
  | .err m => .err m
  | .abort m => .abort m

mutual

/-- `readFromTokens`, driven by structural fuel. -/
def readF : Nat → List String → ReadFResult
  | 0, _ => .outOfFuel
  | _ + 1, [] => .err "unexpected EOF while reading"
  | fuel + 1, token :: rest =>
    if token = "(" then
      match rest with
      | [] => .err "syntax error"
      | r0 :: rrest =>
        match loopF fuel (r0 :: rrest) with
        | .ok children remain => .ok (.Children children) remain
        | .err m => .err m
        | .abort m => .abort m
        | .outOfFuel => .outOfFuel
    else if token = ")" then .err "unexpected )"
    else .ok (atom token) rest
termination_by structural fuel _ => fuel

/-- `readLoop`, driven by structural fuel. -/
def loopF : Nat → List String → LoopResult
  | 0, _ => .outOfFuel
  | _ + 1, [] => .abort "index out of bounds"
  | fuel + 1, t :: rest =>
    if t = ")" then .ok [] rest
    else
      match readF fuel (t :: rest) with
      | .ok node remain =>
        match loopF fuel remain with
        | .ok children remain2 => .ok (node :: children) remain2
        | .err m => .err m
        | .abort m => .abort m
        | .outOfFuel => .outOfFuel
      | .err m => .err m
      | .abort m => .abort m
      | .outOfFuel => .outOfFuel
termination_by structural fuel _ => fuel

end

/-! ## Runtime values, environments and the primitive table -/

/-- `enum DataType` (`src/main.rs` lines 22-27). -/
inductive DataType where
  | Integer (i : Nat)
  | Float (f : ℚ)
  | Symbol (s : String)

/-- `struct Env` (`src/main.rs` lines 29-34): a binding map plus an
optional parent scope.  The `functions` table is global and constant in
the source (`setup_functions` handed to every scope), so it is embedded
as the fixed table `lookupFn` below rather than as a field. -/
inductive Env where
  | mk (vars : List (String × DataType)) (parent : Option Env)

/-- `HashMap::get` on the binding map of one scope. -/
def lookupVars : List (String × DataType) → String → Option DataType
  | [], _ => none
  | (k, v) :: rest, key => if k = key then some v else lookupVars rest key

/-- `HashMap::insert` on the binding map of one scope: replace the
existing binding of the key, or append a new one. -/
def insertVar : List (String × DataType) → String → DataType → List (String × DataType)
  | [], k, v => [(k, v)]
  | (k0, v0) :: rest, k, v =>
    if k0 = k then (k, v) :: rest else (k0, v0) :: insertVar rest k v

/-- `Env::get` (`src/main.rs` lines 37-53): search the current scope,
then recurse into the parent chain.  (The source matches on the binding
map first and on `parent` second; the parent case split is lifted into
the pattern here, which decides the same chain in the same order.) -/
def Env.get : Env → String → Option DataType
  | .mk vars none, key => lookupVars vars key
  | .mk vars (some p), key =>
    match lookupVars vars key with
    | some v => some v
    | none => p.get key

/-- The `define` insertion (`src/main.rs` lines 213-215):
`env.variables.insert` mutates the innermost scope only. -/
def Env.define : Env → String → DataType → Env
  | .mk vars parent, k, v => .mk (insertVar vars k v) parent

/-- Result of one primitive: the source's
`Result<Option<DataType>, &'static str>` plus the panic outcome. -/
inductive PrimOut where
  | ok (v : Option DataType)
  | err (msg : String)
  | abort (msg : String)

/-- The `begin` primitive (`src/main.rs` lines 272-275): `vec.pop()`,
i.e. the last argument, or no value when there is none. -/
def primBegin (args : List DataType) : PrimOut :=
  .ok args.getLast?

/-- The `hello` primitive (`src/main.rs` lines 277-280). -/
def primHello (_ : List DataType) : PrimOut :=
  .ok none

/-- One step of the all-integer fold of `*` (`src/main.rs` lines 305-311):
`u64` multiplication wraps modulo `2 ^ 64`; a non-integer element is the
fold's (unreachable) panic, carried as `none`. -/
def mulIntStep (o : Option Nat) (n : DataType) : Option Nat :=
  o.bind fun a =>
    match n with
    | .Integer i => some (a * i % 2 ^ 64)
    | _ => none

/-- One step of the mixed fold of `*` (`src/main.rs` lines 314-322): an
integer operand is widened to float before multiplying. -/
def mulFloatStep (o : Option ℚ) (n : DataType) : Option ℚ :=
  o.bind fun a =>
    match n with
    | .Integer i => some (a * (i : ℚ))
    | .Float f => some (a * f)
    | _ => none

/-- Is the value an Integer? -/
def DataType.isInt : DataType → Bool
  | .Integer _ => true
  | _ => false

/-- Is the value a Number (Integer or Float)? -/
def DataType.isNumber : DataType → Bool
  | .Integer _ => true
  | .Float _ => true
  | _ => false

/-- The `*` primitive (`src/main.rs` lines 282-327): reject any
non-Number argument; on all-Integer input fold the wrapped `u64` product
from 1; on mixed input fold the float product from 1.0, widening integer
operands.  The debug-description pass panics on a Symbol argument, which
the type check has already excluded; those branches are kept as `abort`. -/
def primMul (args : List DataType) : PrimOut :=
  let isAllIntegers := args.all DataType.isInt
  let isAllNumbers := args.all DataType.isNumber
  if !isAllNumbers then .err "wrong argument datatype"
  else if args.any (fun x => !x.isNumber) then .abort "Something went wrong"
  else if isAllIntegers then
    match args.foldl mulIntStep (some 1) with
    | some r => .ok (some (.Integer r))
    | none => .abort "Something went wrong"
  else if isAllNumbers then
    match args.foldl mulFloatStep (some 1) with
    | some r => .ok (some (.Float r))
    | none => .abort "Something went wrong"
  else .err "Something went wrong"

/-- `setup_functions` (`src/main.rs` lines 269-345): the fixed primitive
table, looked up by name. -/
def lookupFn : String → Option (List DataType → PrimOut)
  | "begin" => some primBegin
  | "hello" => some primHello
  | "*" => some primMul
  | _ => none

/-! ## Evaluator -/

/-- `DataType` back to the `AST` node `eval` returns
(`src/main.rs` lines 248-253). -/
def dataToAst : DataType → AST
  | .Integer i => .Integer i
  | .Float f => .Float f
  | .Symbol s => .Symbol s

/-- Outcome of `eval`: the source's `Result<Option<AST>, &str>`, with the
environment threaded explicitly (in Rust it is mutated through a shared
`RefCell`, so an `Err` still leaves earlier mutations in place) and with
`abort` for a `panic!` or out-of-range index. -/
inductive EvalOut where
  | ok (v : Option AST) (env : Env)
  | err (msg : String) (env : Env)
  | abort (msg : String)

/-- Outcome of evaluating an argument list. -/
inductive ArgsOut where
  | ok (args : List DataType) (env : Env)
  | abort (msg : String)

/-- Prepend one converted argument to an argument-list outcome. -/
def ArgsOut.cons (d : DataType) : ArgsOut → ArgsOut
  | .ok args env => .ok (d :: args) env
  | .abort m => .abort m

mutual

/-- `eval` (`src/main.rs` lines 180-267) on one syntax-tree node.
A Symbol looks itself up, panicking when unbound (line 196).  A compound
node with no children is a `syntax error` (line 205).  A `define` head
reads `solved_list[1]` and `solved_list[2]` by index — out of range
panics — binds literal values or the raw Symbol (the third child is not
evaluated), and rejects a compound third child with
`should not reach here` (line 216).  Any other Symbol head is looked up
in the function table (panic when absent, line 256) and applied to the
evaluated argument list.  A non-Symbol head panics (line 261).
Integer and Float literals evaluate to themselves. -/
def eval : AST → Env → EvalOut
  | .Integer i, env => .ok (some (.Integer i)) env
  | .Float f, env => .ok (some (.Float f)) env
  | .Symbol s, env =>
    match env.get s with
    | some d => .ok (some (dataToAst d)) env
    | none => .abort "symbol is not defined"
  | .Children list, env =>
    match list with
    | [] => .err "syntax error" env
    | hd :: tl =>
      match hd with
      | .Symbol s0 =>
        if s0 = "define" then
          match tl with
          | [] => .abort "index out of bounds"
          | t1 :: tl2 =>
            match t1 with
            | .Symbol s1 =>
              match tl2 with
              | [] => .abort "index out of bounds"
              | t2 :: _ =>
                match t2 with
                | .Integer i => .ok none (env.define s1 (.Integer i))
                | .Float f => .ok none (env.define s1 (.Float f))
                | .Symbol s => .ok none (env.define s1 (.Symbol s))
                | .Children _ => .err "should not reach here" env
            | _ => .err "definition name must be a symbol" env
        else
          match lookupFn s0 with
          | some f =>
            match evalArgs tl env with
            | .ok args env2 =>
              match f args with
              | .ok r => .ok (r.map dataToAst) env2
              | .err m => .err m env2
              | .abort m => .abort m
            | .abort m => .abort m
          | none => .abort "Symbol is not defined"
      | _ => .abort "should not reach here"
termination_by structural ast _ => ast

/-- The argument pipeline of a call (`src/main.rs` lines 232-245): each
argument is evaluated in the shared environment; an `Err` result is
dropped by `filter_map(|r| r.ok())`, a `None` result is dropped by
`filter(|x| x.is_some())`, a kept value is converted to `DataType`
(panicking on a compound value), and a panic anywhere stops everything. -/
def evalArgs : List AST → Env → ArgsOut
  | [], env => .ok [] env
  | a :: rest, env =>
    match eval a env with
    | .abort m => .abort m
    | .err _ env2 => evalArgs rest env2
    | .ok none env2 => evalArgs rest env2
    | .ok (some v) env2 =>
      match v with
      | .Integer i => ArgsOut.cons (.Integer i) (evalArgs rest env2)
      | .Float f => ArgsOut.cons (.Float f) (evalArgs rest env2)
      | .Symbol s => ArgsOut.cons (.Symbol s) (evalArgs rest env2)
      | .Children _ => .abort "Should I care AST Children?"
termination_by structural l _ => l

end

/-! ## The library-level interpreter, modelled from the specification

`tests/spec.rs` imports `run`, `setup`, `eval`, `parse`, `DataType`,
`Number` and `Env` from the `scheme_rs` library crate, whose source is not
in this tree (only `src/main.rs`, an earlier binary-crate evaluator, is).
The definitions in this section are therefore modelled from the
specification, not translated from source: runtime values (§3), the
environment as a shared arena of scopes (§3, §9), the evaluator with its
special forms (§4.4), the primitive library (§4.5) and `run` (§6).
Numbers follow §4.5's "exact arithmetic" reading: integers are unbounded
`Int`, floats are exact `ℚ`.  Recursion through closures is paid for with
an explicit fuel parameter; exhausting it yields a model-internal error,
standing for the host-stack bound of §5. -/

/-- Modelled from the spec: a runtime value (§3) — numbers, symbols,
booleans, lists, and closures capturing the defining scope by shared
reference (here: an index into the scope arena). -/
inductive RTVal where
  | int (i : Int)
  | float (q : ℚ)
  | sym (s : String)
  | bool (b : Bool)
  | list (l : List RTVal)
  | closure (params : List String) (body : AST) (envRef : Nat)

/-- Modelled from the spec: one scope of the environment chain (§3). -/
structure SpecScope where
  vars : List (String × RTVal)
  parent : Option Nat

/-- Modelled from the spec: the arena of all live scopes, addressed by
index, giving the shared mutable environment of §9. -/
abbrev SpecStore : Type := List SpecScope

/-- Binding lookup inside one scope. -/
def specLookupVars : List (String × RTVal) → String → Option RTVal
  | [], _ => none
  | (k, v) :: rest, key => if k = key then some v else specLookupVars rest key

/-- Binding insertion inside one scope (replace or append). -/
def specInsertVar : List (String × RTVal) → String → RTVal → List (String × RTVal)
  | [], k, v => [(k, v)]
  | (k0, v0) :: rest, k, v =>
    if k0 = k then (k, v) :: rest else (k0, v0) :: specInsertVar rest k v

/-- Modelled from the spec: `lookup(name)` (§4.3) — search the scope at
`ref`, then each ancestor through the parent links, innermost first.  The
fuel bounds the chain walk; parents always have smaller indices, so
`st.length` steps suffice. -/
def specLookupAux (st : SpecStore) : Nat → Nat → String → Option RTVal
  | 0, _, _ => none
  | fuel + 1, ref, key =>
    match List.get? st ref with
    | none => none
    | some sc =>
      match specLookupVars sc.vars key with
      | some v => some v
      | none =>
        match sc.parent with
        | some p => specLookupAux st fuel p key
        | none => none
termination_by structural fuel _ _ => fuel

/-- Environment lookup from the scope at `ref`. -/
def specLookup (st : SpecStore) (ref : Nat) (key : String) : Option RTVal :=
  specLookupAux st (st.length + 1) ref key

/-- Modelled from the spec: `define(name, value)` (§4.3) — insert or
overwrite in the innermost scope only, never in an ancestor. -/
def specDefine (st : SpecStore) (ref : Nat) (key : String) (v : RTVal) : SpecStore :=
  match List.get? st ref with
  | some sc => st.set ref { sc with vars := specInsertVar sc.vars key v }
  | none => st

/-- Is the value a Number (§3)? -/
def RTVal.isNum : RTVal → Bool
  | .int _ => true
  | .float _ => true
  | _ => false

/-- A Number as an exact rational, for comparisons and division. -/
def RTVal.toQ : RTVal → Option ℚ
  | .int i => some (i : ℚ)
  | .float q => some q
  | _ => none

/-- Modelled from the spec: the numeric-tower rule for one `+` step
(§4.5) — Integer with Integer stays Integer, otherwise widen to Float. -/
def specAddStep : RTVal → RTVal → Option RTVal
  | .int a, .int b => some (.int (a + b))
  | .int a, .float b => some (.float ((a : ℚ) + b))
  | .float a, .int b => some (.float (a + (b : ℚ)))
  | .float a, .float b => some (.float (a + b))
  | _, _ => none

/-- Modelled from the spec: one `-` step under the same coercion rule. -/
def specSubStep : RTVal → RTVal → Option RTVal
  | .int a, .int b => some (.int (a - b))
  | .int a, .float b => some (.float ((a : ℚ) - b))
  | .float a, .int b => some (.float (a - (b : ℚ)))
  | .float a, .float b => some (.float (a - b))
  | _, _ => none

/-- Modelled from the spec: one `*` step under the same coercion rule. -/
def specMulStep : RTVal → RTVal → Option RTVal
  | .int a, .int b => some (.int (a * b))
  | .int a, .float b => some (.float ((a : ℚ) * b))
  | .float a, .int b => some (.float (a * (b : ℚ)))
  | .float a, .float b => some (.float (a * b))
  | _, _ => none

/-- Modelled from the spec: one `/` step — §8's
`(- (/ (* 1 2 3 4 5) 6) 7) = Float 13.0` shows division always promotes
to Float; dividing by the additive identity is a failure (§4.5). -/
def specDivStep : RTVal → RTVal → Option RTVal
  | a, b => do
    let qa ← a.toQ
    let qb ← b.toQ
    if qb = 0 then none else some (.float (qa / qb))

/-- Left fold of a variadic numeric step over the arguments after the
first (§4.5: `(op a b c)` is `((a op b) op c)`). -/
def specFoldNum (f : RTVal → RTVal → Option RTVal) : RTVal → List RTVal → Except String RTVal
  | acc, [] => .ok acc
  | acc, b :: rest =>
    match f acc b with
    | some c => specFoldNum f c rest
    | none => .error "division by zero"

/-- Modelled from the spec: a variadic arithmetic primitive (§4.5) —
only Number arguments are accepted, the step folds left-to-right from the
first argument, and a single argument passes through unchanged. -/
def specArith (f : RTVal → RTVal → Option RTVal) (args : List RTVal) : Except String RTVal :=
  if args.all RTVal.isNum then
    match args with
    | [] => .error "wrong number of arguments"
    | a :: rest => specFoldNum f a rest
  else .error "wrong argument type"

/-- Pairwise left-to-right comparison chain (§4.5). -/
def specCmpFold (pred : ℚ → ℚ → Bool) : ℚ → List ℚ → Bool
  | _, [] => true
  | a, b :: rest => pred a b && specCmpFold pred b rest

/-- Modelled from the spec: a comparison primitive (§4.5) — Number
arguments compared pairwise left-to-right, returning a Boolean. -/
def specCompare (pred : ℚ → ℚ → Bool) (args : List RTVal) : Except String RTVal :=
  match args.mapM RTVal.toQ with
  | some qs =>
    match qs with
    | [] => .ok (.bool true)
    | a :: rest => .ok (.bool (specCmpFold pred a rest))
  | none => .error "wrong argument type"

/-- Modelled from the spec: `list` (§4.5). -/
def specList (args : List RTVal) : Except String RTVal :=
  .ok (.list args)

/-- Modelled from the spec: `car` (§4.5) — first element of a non-empty
List, *empty list* failure otherwise. -/
def specCar : List RTVal → Except String RTVal
  | [.list (x :: _)] => .ok x
  | [.list []] => .error "empty list"
  | _ => .error "wrong argument type"

/-- Modelled from the spec: `cdr` (§4.5) — everything after the first
element; an empty input list gives an empty list. -/
def specCdr : List RTVal → Except String RTVal
  | [.list (_ :: rest)] => .ok (.list rest)
  | [.list []] => .ok (.list [])
  | _ => .error "wrong argument type"

/-- Modelled from the spec: the Primitive Library (§4.5, §9) — a fixed
registry holding at least `+ - * /`, the comparisons, and the list
operations, injected into the evaluator as a constant table. -/
def specLookupFn : String → Option (List RTVal → Except String RTVal)
  | "+" => some (specArith specAddStep)
  | "-" => some (specArith specSubStep)
  | "*" => some (specArith specMulStep)
  | "/" => some (specArith specDivStep)
  | ">" => some (specCompare (fun a b => decide (a > b)))
  | "<" => some (specCompare (fun a b => decide (a < b)))
  | ">=" => some (specCompare (fun a b => decide (a ≥ b)))
  | "<=" => some (specCompare (fun a b => decide (a ≤ b)))
  | "=" => some (specCompare (fun a b => decide (a = b)))
  | "list" => some specList
  | "car" => some specCar
  | "cdr" => some specCdr
  | _ => none

/-- Truthiness (§4.4): every value except the Boolean `false`. -/
def RTVal.isTruthy : RTVal → Bool
  | .bool false => false
  | _ => true

/-- Outcome of the modelled evaluator: a value-or-nothing plus the scope
arena, or a recoverable failure (§7: every failure is a returned value). -/
inductive SpecOut where
  | ok (v : Option RTVal) (st : SpecStore)
  | err (m : String)

/-- Outcome of evaluating a list of argument expressions in the modelled
evaluator. -/
inductive SpecListOut where
  | ok (vs : List RTVal) (st : SpecStore)
  | err (m : String)

/-- The formal-parameter list of a `lambda`: a compound node of Symbol
nodes (§4.4). -/
def specParamNames : List AST → Option (List String)
  | [] => some []
  | .Symbol s :: rest => (specParamNames rest).map (fun ns => s :: ns)
  | _ => none

mutual

/-- Modelled from the spec: the evaluator (§4.4).  Literals evaluate to
themselves; Symbols through `lookup`; an empty compound node is a syntax
error; `define`, `if`, `lambda` and `begin` are special forms; any other
form evaluates its head to a callable (a primitive name resolving in the
library, or any expression evaluating to a closure), evaluates the
arguments left-to-right, and invokes — a closure call binds the formals
positionally in a fresh scope parented to the captured environment. -/
def specEval : Nat → AST → Nat → SpecStore → SpecOut
  | 0, _, _, _ => .err "out of fuel"
  | fuel + 1, ast, ref, st =>
    match ast with
    | .Integer i => .ok (some (.int (i : Int))) st
    | .Float f => .ok (some (.float f)) st
    | .Symbol s =>
      match specLookup st ref s with
      | some v => .ok (some v) st
      | none => .err "unbound symbol"
    | .Children [] => .err "syntax error"
    | .Children (hd :: tl) =>
      match hd, tl with
      | .Symbol "define", [name, rhs] =>
        match name with
        | .Symbol n =>
          match specEval fuel rhs ref st with
          | .ok (some v) st2 => .ok none (specDefine st2 ref n v)
          | .ok none st2 => .ok none st2
          | .err m => .err m
        | _ => .err "definition name must be a symbol"
      | .Symbol "define", _ => .err "syntax error"
      | .Symbol "if", [c, t] =>
        match specEval fuel c ref st with
        | .ok (some v) st2 =>
          if v.isTruthy then specEval fuel t ref st2 else .ok none st2
        | .ok none _ => .err "syntax error"
        | .err m => .err m
      | .Symbol "if", [c, t, e] =>
        match specEval fuel c ref st with
        | .ok (some v) st2 =>
          if v.isTruthy then specEval fuel t ref st2 else specEval fuel e ref st2
        | .ok none _ => .err "syntax error"
        | .err m => .err m
      | .Symbol "if", _ => .err "syntax error"
      | .Symbol "lambda", [params, body] =>
        match params with
        | .Children ps =>
          match specParamNames ps with
          | some names => .ok (some (.closure names body ref)) st
          | none => .err "syntax error"
        | _ => .err "syntax error"
      | .Symbol "lambda", _ => .err "syntax error"
      | .Symbol "begin", rest => specEvalSeq fuel rest ref st none
      | head, args =>
        match head with
        | .Symbol s =>
          match specLookupFn s with
          | some prim =>
            match specEvalList fuel args ref st with
            | .ok vs st2 =>
              match prim vs with
              | .ok r => .ok (some r) st2
              | .error m => .err m
            | .err m => .err m
          | none => specApplyHead fuel head args ref st
        | _ => specApplyHead fuel head args ref st
termination_by structural fuel _ _ _ => fuel

/-- Evaluate the head of a non-primitive call to a closure and invoke it
(§4.4: the procedure position is itself evaluated). -/
def specApplyHead (fuel : Nat) (head : AST) (args : List AST) (ref : Nat) (st : SpecStore) : SpecOut :=
  match fuel with
  | 0 => .err "out of fuel"
  | fuel + 1 =>
    match specEval fuel head ref st with
    | .ok (some (.closure names body cref)) st2 =>
      match specEvalList fuel args ref st2 with
      | .ok vs st3 =>
        if names.length = vs.length then
          specEval fuel body st3.length
            (st3 ++ [⟨(names.zip vs), some cref⟩])
        else .err "arity error"
      | .err m => .err m
    | .ok _ _ => .err "procedure not found"
    | .err m => .err m
termination_by structural fuel

/-- Evaluate an argument list left-to-right, threading the scope arena;
every argument must produce a value. -/
def specEvalList : Nat → List AST → Nat → SpecStore → SpecListOut
  | 0, _, _, _ => .err "out of fuel"
  | _ + 1, [], _, st => .ok [] st
  | fuel + 1, a :: rest, ref, st =>
    match specEval fuel a ref st with
    | .ok (some v) st2 =>
      match specEvalList fuel rest ref st2 with
      | .ok vs st3 => .ok (v :: vs) st3
      | .err m => .err m
    | .ok none _ => .err "syntax error"
    | .err m => .err m
termination_by structural fuel _ _ _ => fuel

/-- Evaluate a `begin` body in order; the value of the form is the value
of the last child (§4.4). -/
def specEvalSeq : Nat → List AST → Nat → SpecStore → Option RTVal → SpecOut
  | 0, _, _, _, _ => .err "out of fuel"
  | _ + 1, [], _, st, last => .ok last st
  | fuel + 1, a :: rest, ref, st, _ =>
    match specEval fuel a ref st with
    | .ok v st2 => specEvalSeq fuel rest ref st2 v
    | .err m => .err m
termination_by structural fuel _ _ _ _ => fuel

end

/-- The IEEE double closest to π, as an exact rational: the value the
source binds to `pi` (`std::f64::consts::PI`). -/
def piF64 : ℚ := 884279719003555 / 281474976710656

/-- Modelled from the spec: the fresh top-level environment `run` builds
(§6) — a single parentless scope pre-binding the constant `pi` (and the
Boolean literals `#t`/`#f` that §8 uses), with the primitive library
injected as the constant table `specLookupFn` (§9). -/
def specStore0 : SpecStore :=
  [⟨[("pi", .float piF64), ("#t", .bool true), ("#f", .bool false)], none⟩]

/-- Modelled from the spec: the top-level loop of `run` (§6) — read one
form (through the fuel engine `readF`, which `readF_loopF_eq` proves
computes `read_from_tokens`), evaluate it, and continue on the unconsumed
remainder until no tokens are left; the value returned is the value of
the last form. -/
def specRunLoop : Nat → List String → SpecStore → Except String (Option RTVal)
  | 0, _, _ => .error "out of fuel"
  | fuel + 1, ts, st =>
    match readF (2 * ts.length + 2) ts with
    | .ok ast remain =>
      match specEval fuel ast 0 st with
      | .ok v st2 => if remain.isEmpty then .ok v else specRunLoop fuel remain st2
      | .err m => .error m
    | .err m => .error m
    | .abort m => .error m
    | .outOfFuel => .error "out of fuel"

/-- Modelled from the spec: `run(text)` (§6) — parse and evaluate every
top-level form against a freshly constructed environment pre-populated
with `pi` and the primitive library.  `fuel` bounds the recursion depth,
standing for the host call stack of §5. -/
def specRun (fuel : Nat) (text : String) : Except String (Option RTVal) :=
  specRunLoop fuel (tokenizeStr text) specStore0

/-! ## Helper views used by the theorems -/

/-- The top-level environment `main` constructs (`src/main.rs` lines
59-70): the single scope binding `pi`, no parent. -/
def mainEnv : Env := .mk [("pi", .Float piF64)] none

/-- Is an evaluation outcome a recoverable `Err` value (as opposed to an
`Ok` result or a process-ending panic)? -/
def EvalOut.isRecoverableErr : EvalOut → Bool
  | .err _ _ => true
  | _ => false

/-- Is an evaluation outcome a panic? -/
def EvalOut.isAbort : EvalOut → Bool
  | .abort _ => true
  | _ => false

/-- The scope chain of an environment, innermost first. -/
def Env.scopes : Env → List (List (String × DataType))
  | .mk vars parent =>
    vars ::
      (match parent with
       | some p => p.scopes
       | none => [])

/-- The first binding of a key along a scope chain, searching the scopes
in order: the specification's description of `lookup`. -/
def firstBinding : List (List (String × DataType)) → String → Option DataType
  | [], _ => none
  | sc :: rest, key =>
    match lookupVars sc key with
    | some v => some v
    | none => firstBinding rest key

/-- The `i as f64` widening view of a numeric argument (exact, since
floats are modelled as rationals).  A Symbol — excluded wherever this is
used — maps to 0. -/
def DataType.widen : DataType → ℚ
  | .Integer i => (i : ℚ)
  | .Float f => f
  | .Symbol _ => 0

/-- Is a syntax-tree node an Integer literal? -/
def AST.isIntegerNode : AST → Bool
  | .Integer _ => true
  | _ => false

/-- Is a syntax-tree node a Float literal? -/
def AST.isFloatNode : AST → Bool
  | .Float _ => true
  | _ => false

/-! ## Theorems -/

/-- The implementation tokenizer and the specification tokenizer agree for
every accumulator state. -/
theorem splitWs_expandChars (cs : List Char) :
    ∀ acc, splitWs (expandChars cs) acc = specTokenize cs acc := by
  induction cs with
  | nil => intro acc; rfl
  | cons c cs ih =>
    intro acc
    by_cases hpo : c = '('
    · subst hpo
      simp [expandChars, splitWs, specTokenize, isWs, closeAcc, ih]
    · by_cases hpc : c = ')'
      · subst hpc
        simp [expandChars, splitWs, specTokenize, isWs, closeAcc, ih]
      · by_cases hws : isWs c = true
        · have hne : ¬(c = '(' || c = ')') = true := by
            simp [hpo, hpc]
          simp [expandChars, hpo, hpc, splitWs, specTokenize, hws, hne, ih]
        · have hne : ¬(c = '(' || c = ')') = true := by
            simp [hpo, hpc]
          simp [expandChars, hpo, hpc, splitWs, specTokenize, hws, hne, ih]

/-- With fuel at least `2·n+1` on `n` tokens the fuel engine computes the
well-founded reader (and the loop engine the child loop, from `2·n+2`). -/
theorem readF_loopF_eq (fuel : Nat) :
    (∀ ts : List String, 2 * ts.length + 1 ≤ fuel →
      readF fuel ts = (readTokens ts).lift) ∧
    (∀ ts : List String, 2 * ts.length + 2 ≤ fuel →
      loopF fuel ts = (readLoop ts).plain) := by
  induction fuel with
  | zero =>
    constructor <;> intro ts h <;> omega
  | succ fuel ih =>
    obtain ⟨ihR, ihL⟩ := ih
    constructor
    · intro ts h
      match ts with
      | [] =>
        simp [readF, readTokens, readFromTokens, ReadOut.plain, ReadResult.lift]
      | token :: rest =>
        by_cases hp : token = "("
        · subst hp
          match rest with
          | [] =>
            simp [readF, readTokens, readFromTokens, ReadOut.plain, ReadResult.lift]
          | r0 :: rrest =>
            have hfuel : 2 * (r0 :: rrest).length + 2 ≤ fuel := by
              simp only [List.length_cons] at h ⊢
              omega
            have hL := ihL (r0 :: rrest) hfuel
            rcases hval : readLoop (r0 :: rrest) with ⟨children, remain, hlt⟩ | m | m <;>
              rw [hval] at hL <;>
              simp only [LoopOut.plain] at hL <;>
              simp [readF, readTokens, readFromTokens, ReadOut.plain, ReadResult.lift,
                hL, hval]
        · by_cases hq : token = ")"
          · subst hq
            simp only [readTokens]
            rw [readFromTokens.eq_def]
            simp [readF, ReadOut.plain, ReadResult.lift, hp]
          · simp only [readTokens]
            rw [readFromTokens.eq_def]
            simp [readF, ReadOut.plain, ReadResult.lift, hp, hq]
    · intro ts h
      match ts with
      | [] =>
        simp [loopF, readLoop, LoopOut.plain]
      | t :: rest =>
        by_cases hq : t = ")"
        · subst hq
          simp [loopF, readLoop, LoopOut.plain]
        · have hfuel : 2 * (t :: rest).length + 1 ≤ fuel := by
            simp only [List.length_cons] at h ⊢
            omega
          have hR := ihR (t :: rest) hfuel
          rcases hval : readFromTokens (t :: rest) with ⟨node, remain, hlt⟩ | m | m <;>
            rw [show readTokens (t :: rest) = (readFromTokens (t :: rest)).plain from rfl,
              hval] at hR <;>
            simp only [ReadOut.plain, ReadResult.lift] at hR
          · have hfuel2 : 2 * remain.length + 2 ≤ fuel := by
              simp only [List.length_cons] at hlt hfuel
              omega
            have hL2 := ihL remain hfuel2
            rcases hval2 : readLoop remain with ⟨children, remain2, hlt2⟩ | m | m <;>
              rw [hval2] at hL2 <;>
              simp only [LoopOut.plain] at hL2 <;>
              simp [loopF, readLoop, LoopOut.plain, hq, hR, hL2, hval, hval2]
          · simp [loopF, readLoop, LoopOut.plain, hq, hR, hval]
          · simp [loopF, readLoop, LoopOut.plain, hq, hR, hval]

/-- Reading a token list with the fuel engine at fuel `2·n+2` is exactly
`read_from_tokens`. -/
theorem readTokens_eq_readF (ts : List String) :
    (readTokens ts).lift = readF (2 * ts.length + 2) ts := by
  have h := (readF_loopF_eq (2 * ts.length + 2)).1 ts (by omega)
  exact h.symm

/-- Erasure distinguishes reader outcomes. -/
theorem ReadResult.lift_inj {a b : ReadResult} (h : a.lift = b.lift) : a = b := by
  cases a <;> cases b <;> simp_all [ReadResult.lift]

/-- Transfer a kernel computation of the fuel engine to the reader. -/
theorem readTokens_of_readF {ts : List String} {r : ReadResult}
    (h : readF (2 * ts.length + 2) ts = r.lift) : readTokens ts = r := by
  apply ReadResult.lift_inj
  rw [readTokens_eq_readF, h]

/-- `Env::get` searches the scope chain innermost first and returns the
first binding found. -/
theorem env_get_eq_firstBinding : (env : Env) → (key : String) →
    env.get key = firstBinding env.scopes key
  | .mk vars none, key => by
    cases hv : lookupVars vars key <;> simp [Env.get, Env.scopes, firstBinding, hv]
  | .mk vars (some p), key => by
    cases hv : lookupVars vars key <;>
      simp [Env.get, Env.scopes, firstBinding, hv, env_get_eq_firstBinding p key]

/-- C1: the claim says an error in any argument sub-expression fails the
whole call form.  The code instead drops the error in its
`filter_map(|r| r.ok())` stage: in `(* 2 ())` the argument `()` evaluates
to the recoverable `syntax error`, yet the whole form invokes `*` on the
partial argument list `[2]` and returns the partial product `Integer 2`. -/
theorem claim_c1_argument_error_swallowed :
    parse "(* 2 ())" =
      .ok (.Children [.Symbol "*", .Integer 2, .Children []]) [] ∧
    eval (.Children []) mainEnv = .err "syntax error" mainEnv ∧
    eval (.Children [.Symbol "*", .Integer 2, .Children []]) mainEnv =
      .ok (some (.Integer 2)) mainEnv :=
  ⟨readTokens_of_readF rfl, rfl, rfl⟩

/-- C2: the claim says the third child of a `define` form is evaluated
and the resulting value bound.  The code never evaluates it: a compound
third child such as `(+ 1 2)` is rejected with `should not reach here`
and nothing is bound, and a Symbol third child is bound as the raw symbol
rather than its value. -/
theorem claim_c2_define_third_child_not_evaluated :
    parse "(define x (+ 1 2))" =
      .ok (.Children [.Symbol "define", .Symbol "x",
        .Children [.Symbol "+", .Integer 1, .Integer 2]]) [] ∧
    eval (.Children [.Symbol "define", .Symbol "x",
        .Children [.Symbol "+", .Integer 1, .Integer 2]]) mainEnv =
      .err "should not reach here" mainEnv ∧
    eval (.Children [.Symbol "define", .Symbol "x", .Symbol "y"]) mainEnv =
      .ok none (.mk [("pi", .Float piF64), ("x", .Symbol "y")] none) :=
  ⟨readTokens_of_readF rfl, rfl, rfl⟩

/-- C3: the modelled library pipeline: the primitive registry holds
`+ - * /`, the fresh environment pre-binds `pi`, and
`run "(+ 1 2 3 (+ 4 5) 6)"` evaluates to the Integer 21. -/
theorem claim_c3_run_arithmetic :
    (specLookupFn "+").isSome = true ∧
    (specLookupFn "-").isSome = true ∧
    (specLookupFn "*").isSome = true ∧
    (specLookupFn "/").isSome = true ∧
    specLookup specStore0 0 "pi" = some (.float piF64) ∧
    specRun 100 "(+ 1 2 3 (+ 4 5) 6)" = .ok (some (.int 21)) :=
  ⟨rfl, rfl, rfl, rfl, rfl, rfl⟩

/-- C4: the claim says the procedure position of a call form is itself
evaluated, so a compound head such as `((repeat f) x)` works.  The code
panics (`should not reach here`, line 261) on any compound node whose
first child is not a Symbol. -/
theorem claim_c4_compound_head_panics :
    parse "((hello) 1)" =
      .ok (.Children [.Children [.Symbol "hello"], .Integer 1]) [] ∧
    eval (.Children [.Children [.Symbol "hello"], .Integer 1]) mainEnv =
      .abort "should not reach here" :=
  ⟨readTokens_of_readF rfl, rfl⟩

/-- C5 (amended): lookup searches the current scope, then each ancestor
innermost first, returning the first binding found; but when the chain is
exhausted, evaluating the Symbol panics (`src/main.rs` line 196) — an
unrecoverable termination, not a recoverable error value. -/
theorem claim_c5_lookup_order_and_panic :
    (∀ (env : Env) (key : String), env.get key = firstBinding env.scopes key) ∧
    (∀ (env : Env) (key : String), env.get key = none →
      eval (.Symbol key) env = .abort "symbol is not defined" ∧
      (eval (.Symbol key) env).isRecoverableErr = false) := by
  refine ⟨env_get_eq_firstBinding, fun env key h => ⟨?_, ?_⟩⟩
  · simp [eval, h]
  · simp [eval, h, EvalOut.isRecoverableErr]

/-- Witness for C5: an environment with no binding for `nope`. -/
theorem claim_c5_witness :
    Env.get (.mk [] none) "nope" = none ∧
    eval (.Symbol "nope") (.mk [] none) = .abort "symbol is not defined" :=
  ⟨rfl, (claim_c5_lookup_order_and_panic.2 (.mk [] none) "nope" rfl).1⟩

/-- Counterexample to C5 as stated: evaluating the unbound Symbol `nope`
is a panic, not the recoverable failure the claim asserts. -/
theorem claim_c5_counterexample :
    eval (.Symbol "nope") (.mk [] none) = .abort "symbol is not defined" ∧
    (eval (.Symbol "nope") (.mk [] none)).isRecoverableErr = false :=
  ⟨rfl, rfl⟩

/-- C6: the claim says every premature token exhaustion is a returned
syntax-error value.  The empty input, a bare `)` and a lone `(` do return
error values, but `"(a"` — exhaustion after at least one child has been
read — panics: the loop condition indexes `tmp_tokens[0]` on an empty
vector. -/
theorem claim_c6_reader_failures :
    readTokens [] = .err "unexpected EOF while reading" ∧
    parse "" = .err "unexpected EOF while reading" ∧
    parse "(" = .err "syntax error" ∧
    parse ")" = .err "unexpected )" ∧
    tokenizeStr "(a" = ["(", "a"] ∧
    readTokens ["(", "a"] = .abort "index out of bounds" :=
  ⟨readTokens_of_readF rfl, readTokens_of_readF rfl, readTokens_of_readF rfl,
    readTokens_of_readF rfl, rfl, readTokens_of_readF rfl⟩

/-- C10: `eval` on a `define` form indexes the second and third children
without an arity check: `(define)` and `(define x)` panic with an
out-of-range index rather than returning a recoverable error, while any
`define` with a Symbol name and at least three children never panics. -/
theorem claim_c10_define_arity_abort :
    (∀ env : Env, eval (.Children [.Symbol "define"]) env =
      .abort "index out of bounds") ∧
    (∀ (env : Env) (s : String), eval (.Children [.Symbol "define", .Symbol s]) env =
      .abort "index out of bounds") ∧
    (∀ (env : Env) (s : String) (t : AST) (rest : List AST),
      (eval (.Children (.Symbol "define" :: .Symbol s :: t :: rest)) env).isAbort =
        false) := by
  refine ⟨fun env => rfl, fun env s => rfl, fun env s t rest => ?_⟩
  cases t <;> rfl

/-- The all-integer fold of `*` computes the product when it fits below
`2 ^ 64` (a wrapped prefix can only occur when a later zero factor erases
it). -/
theorem mulIntFold_eq (ns : List Nat) : ∀ acc : Nat, acc < 2 ^ 64 →
    acc * ns.prod < 2 ^ 64 →
    List.foldl mulIntStep (some acc) (ns.map DataType.Integer) = some (acc * ns.prod) := by
  induction ns with
  | nil =>
    intro acc h1 h2
    simp
  | cons n rest ih =>
    intro acc h1 h2
    have hstep : mulIntStep (some acc) (DataType.Integer n) = some (acc * n % 2 ^ 64) := rfl
    simp only [List.map_cons, List.foldl_cons, hstep, List.prod_cons]
    rw [List.prod_cons, ← mul_assoc] at h2
    by_cases hw : acc * n < 2 ^ 64
    · rw [Nat.mod_eq_of_lt hw, ih (acc * n) hw h2, mul_assoc]
    · have hz : rest.prod = 0 := by
        rcases Nat.eq_zero_or_pos rest.prod with h | h
        · exact h
        · have : acc * n ≤ acc * n * rest.prod := Nat.le_mul_of_pos_right _ h
          omega
      have hmodlt : acc * n % 2 ^ 64 < 2 ^ 64 := Nat.mod_lt _ (by norm_num)
      rw [ih (acc * n % 2 ^ 64) hmodlt (by rw [hz]; simp), hz]
      simp

/-- The mixed fold of `*` computes the rational product of the widened
arguments. -/
theorem mulFloatFold_eq (args : List DataType) : ∀ acc : ℚ,
    args.all DataType.isNumber = true →
    List.foldl mulFloatStep (some acc) args =
      some (acc * (args.map DataType.widen).prod) := by
  induction args with
  | nil =>
    intro acc h
    simp
  | cons a rest ih =>
    intro acc h
    simp only [List.all_cons, Bool.and_eq_true] at h
    obtain ⟨ha, hrest⟩ := h
    cases a with
    | Integer i =>
      have hstep : mulFloatStep (some acc) (DataType.Integer i) = some (acc * (i : ℚ)) := rfl
      simp only [List.foldl_cons, hstep, ih _ hrest, List.map_cons, List.prod_cons,
        DataType.widen, mul_assoc]
    | Float f =>
      have hstep : mulFloatStep (some acc) (DataType.Float f) = some (acc * f) := rfl
      simp only [List.foldl_cons, hstep, ih _ hrest, List.map_cons, List.prod_cons,
        DataType.widen, mul_assoc]
    | Symbol s => simp [DataType.isNumber] at ha

/-- C7: the `*` primitive rejects any non-Number argument with the
wrong-argument-type error; on all-Integer input it returns the Integer
product (`u64` arithmetic, so whenever the product fits below `2 ^ 64`);
on mixed input it widens every Integer operand and returns the Float
product, folded left-to-right from 1 (stated through the rational
product, to which the left fold evaluates). -/
theorem claim_c7_mul_primitive :
    (∀ args : List DataType, (∃ d ∈ args, d.isNumber = false) →
      primMul args = .err "wrong argument datatype") ∧
    (∀ ns : List Nat, ns.prod < 2 ^ 64 →
      primMul (ns.map DataType.Integer) = .ok (some (.Integer ns.prod))) ∧
    (∀ args : List DataType, args.all DataType.isNumber = true →
      args.any (fun d => !d.isInt) = true →
      primMul args = .ok (some (.Float ((args.map DataType.widen).prod)))) := by
  refine ⟨?_, ?_, ?_⟩
  · intro args h
    obtain ⟨d, hd, hnum⟩ := h
    have hall : args.all DataType.isNumber = false := by
      rw [← Bool.not_eq_true, List.all_eq_true]
      intro hc
      have := hc d hd
      rw [hnum] at this
      cases this
    simp [primMul, hall]
  · intro ns h
    have hnum : (ns.map DataType.Integer).all DataType.isNumber = true := by
      simp [List.all_map, Function.comp, DataType.isNumber]
    have hint : (ns.map DataType.Integer).all DataType.isInt = true := by
      simp [List.all_map, Function.comp, DataType.isInt]
    have hany : (ns.map DataType.Integer).any (fun x => !x.isNumber) = false := by
      simp [List.any_map, Function.comp, DataType.isNumber]
    have hfold := mulIntFold_eq ns 1 (by norm_num) (by simpa using h)
    rw [one_mul] at hfold
    simp [primMul, hnum, hint, hany, hfold]
  · intro args hnum hany
    have hint : args.all DataType.isInt = false := by
      rw [← Bool.not_eq_true, List.all_eq_true]
      intro hc
      rw [List.any_eq_true] at hany
      obtain ⟨d, hd, hdp⟩ := hany
      have := hc d hd
      rw [this] at hdp
      cases hdp
    have hanysym : args.any (fun x => !x.isNumber) = false := by
      rw [← Bool.not_eq_true, List.any_eq_true]
      rintro ⟨d, hd, hdp⟩
      rw [List.all_eq_true] at hnum
      rw [hnum d hd] at hdp
      cases hdp
    have hfold := mulFloatFold_eq args 1 hnum
    rw [one_mul] at hfold
    simp [primMul, hnum, hint, hanysym, hfold]

/-- Witness for C7: a type error, an all-integer product, and a mixed
product with widening. -/
theorem claim_c7_witness :
    primMul [.Integer 2, .Symbol "x"] = .err "wrong argument datatype" ∧
    primMul [.Integer 2, .Integer 3] = .ok (some (.Integer 6)) ∧
    primMul [.Integer 2, .Float (1 / 2)] = .ok (some (.Float 1)) := by
  refine ⟨claim_c7_mul_primitive.1 _ ⟨.Symbol "x", by simp, rfl⟩, ?_, ?_⟩
  · have h := claim_c7_mul_primitive.2.1 [2, 3] (by norm_num)
    simpa using h
  · have h := claim_c7_mul_primitive.2.2 [.Integer 2, .Float (1 / 2)] rfl rfl
    simp only [List.map_cons, List.map_nil, List.prod_cons, List.prod_nil,
      DataType.widen] at h
    rw [h]
    norm_num

/-- C8: the tokenizer is a total function (by construction), it refines
the specification scanner that isolates every parenthesis into its own
single-character token and collects every other maximal
whitespace-delimited run as one atom token in input order, and empty
input yields the empty token sequence. -/
theorem claim_c8_tokenizer_refines_spec :
    (∀ p : List Char, tokenize p = specTokenize p []) ∧
    tokenize [] = [] ∧ tokenizeStr "" = [] :=
  ⟨fun p => splitWs_expandChars p [], rfl, rfl⟩

/-- On a nonempty all-digit token the `u64` parse succeeds exactly when
the value fits below `2 ^ 64`. -/
theorem parseU64_digits (ds : List Char) (hne : ds ≠ [])
    (hdig : ds.all Char.isDigit = true) :
    parseU64 ds = if digitsToNat ds < 2 ^ 64 then some (digitsToNat ds) else none := by
  match ds, hne with
  | c :: r, _ =>
    have hc : c.isDigit = true := by
      simp only [List.all_cons, Bool.and_eq_true] at hdig
      exact hdig.1
    have hcp : c ≠ '+' := by
      intro h
      subst h
      exact absurd hc (by decide)
    have hmatch : (match c :: r with | '+' :: rr => rr | _ => c :: r) = c :: r := by
      split
      · next rr heq =>
        injection heq with h1 h2
        exact absurd h1 hcp
      · rfl
    simp only [parseU64, hmatch]
    simp [hdig]

/-- On a nonempty all-digit token the `f64` parse succeeds with the
token's decimal value. -/
theorem parseF64_digits (ds : List Char) (hne : ds ≠ [])
    (hdig : ds.all Char.isDigit = true) :
    parseF64 ds = some ((digitsToNat ds : ℚ)) := by
  match ds, hne with
  | c :: r, _ =>
    have hc : c.isDigit = true := by
      simp only [List.all_cons, Bool.and_eq_true] at hdig
      exact hdig.1
    have hcp : c ≠ '+' := by
      intro h
      subst h
      exact absurd hc (by decide)
    have hcm : c ≠ '-' := by
      intro h
      subst h
      exact absurd hc (by decide)
    have hsg : stripSignF (c :: r) = ((1 : ℚ), c :: r) := by
      simp only [stripSignF.eq_def]
      split
      · next rr heq =>
        injection heq with h1 h2
        exact absurd h1 hcp
      · next rr heq =>
        injection heq with h1 h2
        exact absurd h1 hcm
      · rfl
    have hall : ∀ x ∈ c :: r, Char.isDigit x := by
      intro x hx
      exact List.all_eq_true.mp hdig x hx
    have hspan : spanDigits (c :: r) = (c :: r, []) := by
      simp only [spanDigits]
      rw [List.takeWhile_eq_self_iff.mpr hall, List.dropWhile_eq_nil_iff.mpr hall]
    simp only [parseF64, hsg, hspan]
    simp [parseExpPart, mantissa]

/-- C9 (amended): classification tries the 64-bit integer parse first,
then the float parse, then falls back to Symbol, and never fails; an
all-digit token whose value fits below `2 ^ 64` — such as `"10"` — is an
Integer node, while an all-digit token at or above `2 ^ 64` overflows the
integer parse and falls through to a Float node. -/
theorem claim_c9_atom_classification :
    (∀ (t : String) (i : Nat), parseU64 t.data = some i → atom t = .Integer i) ∧
    (∀ (t : String) (f : ℚ), parseU64 t.data = none → parseF64 t.data = some f →
      atom t = .Float f) ∧
    (∀ t : String, parseU64 t.data = none → parseF64 t.data = none →
      atom t = .Symbol t) ∧
    (∀ ds : List Char, ds ≠ [] → ds.all Char.isDigit = true →
      digitsToNat ds < 2 ^ 64 → atom (String.mk ds) = .Integer (digitsToNat ds)) ∧
    (∀ ds : List Char, ds ≠ [] → ds.all Char.isDigit = true →
      2 ^ 64 ≤ digitsToNat ds → atom (String.mk ds) = .Float ((digitsToNat ds : ℚ))) ∧
    atom "10" = .Integer 10 := by
  refine ⟨?_, ?_, ?_, ?_, ?_, rfl⟩
  · intro t i h
    simp [atom, h]
  · intro t f h1 h2
    simp [atom, h1, h2]
  · intro t h1 h2
    simp [atom, h1, h2]
  · intro ds hne hdig hlt
    have h := parseU64_digits ds hne hdig
    rw [if_pos hlt] at h
    simp [atom, h]
  · intro ds hne hdig hge
    have h1 := parseU64_digits ds hne hdig
    rw [if_neg (by omega)] at h1
    have h2 := parseF64_digits ds hne hdig
    simp [atom, h1, h2]

/-- Witness for C9: the token `10` is an Integer node; the 20-digit
all-nines token overflows the 64-bit range and is a Float node. -/
theorem claim_c9_witness :
    atom (String.mk ['1', '0']) = .Integer (digitsToNat ['1', '0']) ∧
    atom (String.mk ['9', '9', '9', '9', '9', '9', '9', '9', '9', '9',
        '9', '9', '9', '9', '9', '9', '9', '9', '9', '9']) =
      .Float ((digitsToNat ['9', '9', '9', '9', '9', '9', '9', '9', '9', '9',
        '9', '9', '9', '9', '9', '9', '9', '9', '9', '9'] : ℚ)) :=
  ⟨claim_c9_atom_classification.2.2.2.1 _ (by decide) (by decide) (by decide),
    claim_c9_atom_classification.2.2.2.2.1 _ (by decide) (by decide) (by decide)⟩

/-- Counterexample to C9 as stated: the all-digit token
`99999999999999999999` exceeds the 64-bit range, so it is classified as a
Float node, not the Integer node the claim promises for every all-digit
token. -/
theorem claim_c9_counterexample :
    (atom "99999999999999999999").isFloatNode = true ∧
    (atom "99999999999999999999").isIntegerNode = false :=
  ⟨rfl, rfl⟩

end SchemeRs
